import Mathlib

/-!
Verification of the hostpath-provisioner core (main.go).

The embedding models:
* the path derivation `path.Join(pvDir, namespace, claimName)` with Go's
  `path.Join` / `path.Clean` semantics (component-stack formulation of the
  lexical cleaning algorithm);
* configuration read through `getEnv` over an environment map;
* `Provision` and `Delete` over an explicit filesystem state (the set of
  existing paths) together with an injection environment supplying the
  outcomes of the OS calls (`os.MkdirAll`, `os.Chmod`, `os.RemoveAll`).
-/

/-- Split a character list at every occurrence of the separator
(Go `strings.Split`; an empty input yields one empty component). -/
def splitChar (sep : Char) : List Char → List (List Char)
  | [] => [[]]
  | c :: rest =>
    match splitChar sep rest with
    | [] => [[]]
    | h :: t => if c = sep then [] :: h :: t else (c :: h) :: t

/-- Whether a path begins with a slash (`rooted` in Go `path.Clean`). -/
def isRooted : List Char → Bool
  | [] => false
  | c :: _ => c = '/'

/-- One step of the component stack of Go `path.Clean`: empty and `.`
components are dropped; `..` pops a component when one is available (always
poppable when rooted, and when unrooted only while the top is not itself a
`..`), is dropped at the root, and is kept when unrooted with nothing to
pop; any other component is pushed. -/
def cleanStep (rooted : Bool) (stack : List (List Char)) (c : List Char) :
    List (List Char) :=
  if c = [] ∨ c = ['.'] then stack
  else if c = ['.', '.'] then
    match stack with
    | top :: s2 => if rooted ∨ top ≠ ['.', '.'] then s2 else ['.', '.'] :: top :: s2
    | [] => if rooted then [] else [['.', '.']]
  else c :: stack

/-- Run the `path.Clean` component stack over a component list. -/
def cleanStack (rooted : Bool) (stack comps : List (List Char)) : List (List Char) :=
  comps.foldl (cleanStep rooted) stack

/-- Join components with slashes. -/
def joinComps : List (List Char) → List Char
  | [] => []
  | [c] => c
  | c :: rest => c ++ '/' :: joinComps rest

/-- Go `path.Clean` on the underlying character list of a nonempty path. -/
def goCleanData (p : List Char) : List Char :=
  let rooted := isRooted p
  let body := joinComps (cleanStack rooted [] (splitChar '/' p)).reverse
  if rooted then (if body = [] then ['/'] else '/' :: body)
  else (if body = [] then ['.'] else body)

/-- Go `path.Clean`. -/
def goClean (p : String) : String :=
  if p = "" then "." else String.mk (goCleanData p.data)

/-- Go `strings.Join` with separator `"/"`. -/
def joinStrings : List String → String
  | [] => ""
  | [s] => s
  | s :: rest => s ++ "/" ++ joinStrings rest

/-- Go `path.Join`: skip leading empty elements, join the remaining elements
with slashes and clean the result; all-empty input yields the empty string. -/
def goJoin : List String → String
  | [] => ""
  | e :: rest => if e = "" then goJoin rest else goClean (joinStrings (e :: rest))

/-- The backing path Provision derives:
`path.Join(p.pvDir, options.PVC.Namespace, options.PVC.Name)` (main.go:45). -/
def pvPath (dir ns name : String) : String := goJoin [dir, ns, name]

/-- A filesystem error as returned by the `os` package (`*fs.PathError`):
operation, path and underlying cause. -/
structure PathErr where
  op : String
  path : String
  cause : String
  deriving DecidableEq

/-- Injected outcome of an `os.MkdirAll` call that did not plainly succeed:
either an already-exists error (`os.IsExist err` holds) or another failure. -/
inductive MkdirOutcome
  | exist
  | fail (e : PathErr)
  deriving DecidableEq

/-- Outcomes of the OS filesystem calls, indexed by path
(`none` = the call succeeds). -/
structure FsEnv where
  mkdirErr : String → Option MkdirOutcome
  chmodErr : String → Option PathErr
  removeErr : String → Option PathErr

/-- Filesystem state: the set of existing paths.  `os.MkdirAll` ensures the
path exists. -/
def mkdirAllState (fs : List String) (p : String) : List String :=
  if p ∈ fs then fs else p :: fs

/-- Whether `q` lies strictly below directory `dir`. -/
def isUnder (dir q : String) : Bool := String.isPrefixOf (dir ++ "/") q

/-- Model of `os.RemoveAll`: remove the path and everything below it; removing an
absent path is a no-op (and not an error). -/
def removeAllState (fs : List String) (p : String) : List String :=
  fs.filter (fun q => !(q == p || isUnder p q))

/-- Go map lookup on an association list (first binding wins). -/
def lookupAssoc (m : List (String × String)) (k : String) : Option String :=
  match m with
  | [] => none
  | (k2, v) :: rest => if k2 = k then some v else lookupAssoc rest k

/-- PVC spec fields used by main.go: access modes and the resource-requests
map (quantities kept opaque as strings). -/
structure PVCSpec where
  accessModes : List String
  requests : List (String × String)
  deriving DecidableEq

/-- The claim: namespace, name and spec (`options.PVC`). -/
structure PVC where
  namespace_ : String
  name : String
  spec : PVCSpec
  deriving DecidableEq

/-- Storage class fields used by main.go; `ReclaimPolicy` is a pointer in
the Go API, hence an `Option` here. -/
structure StorageClass where
  reclaimPolicy : Option String
  deriving DecidableEq

/-- Fields of `controller.ProvisionOptions` used by main.go. -/
structure ProvisionOptions where
  storageClass : StorageClass
  pvName : String
  pvc : PVC
  deriving DecidableEq

/-- PersistentVolume descriptor, flattening the fields main.go reads and
writes (`ObjectMeta.Name`, `ObjectMeta.Annotations`,
`Spec.PersistentVolumeReclaimPolicy`, `Spec.AccessModes`,
`Spec.Capacity[storage]`, `Spec.PersistentVolumeSource.HostPath.Path`;
`HostPath` is a pointer in the Go API, hence an `Option`). -/
structure PersistentVolume where
  name : String
  annotations : List (String × String)
  reclaimPolicy : String
  accessModes : List String
  capacityStorage : String
  hostPath : Option String
  deriving DecidableEq

/-- The provisioner value (main.go:39-42). -/
structure hostPathProvisioner where
  pvDir : String
  identity : String
  deriving DecidableEq

/-- Result of `Provision`: `(pv, ProvisioningFinished, nil)`,
`(nil, ProvisioningFinished, err)`, or a run-time panic (nil dereference). -/
inductive ProvisionResult
  | ok (pv : PersistentVolume)
  | err (e : PathErr)
  | panics
  deriving DecidableEq

/-- A Go error value as `Delete` produces it: `errors.New msg`, or
`errors.Wrap cause msg` (rendered "msg: cause"). -/
inductive GoError
  | simple (msg : String)
  | wrapped (msg : String) (cause : PathErr)
  deriving DecidableEq

/-- Result of `Delete`: success, `controller.IgnoredError` (a distinguished
non-error "not mine" outcome), a hard error, or a run-time panic. -/
inductive DeleteResult
  | ok
  | ignored (reason : String)
  | err (e : GoError)
  | panics
  deriving DecidableEq

/-- Source `getEnv` (main.go:30-37): the value of the variable, or the default when
it is unset or empty (`os.Getenv` returns `""` for unset variables). -/
def getEnv (osEnv : String → String) (key defaultValue : String) : String :=
  let value := osEnv key
  if value = "" then defaultValue else value

/-- main.go:19. -/
def defaultProvisionerName : String := "hostpath"

/-- main.go:20. -/
def defaultPVDir : String := "/data"

/-- main.go:21. -/
def defaultIdentity : String := "hostpath-provisioner"

/-- main.go:25. -/
def provisionerName (osEnv : String → String) : String :=
  getEnv osEnv "PROVISIONER_NAME" defaultProvisionerName

/-- main.go:26. -/
def pvDir (osEnv : String → String) : String :=
  getEnv osEnv "PROVISIONER_DIR" defaultPVDir

/-- main.go:27. -/
def identity (osEnv : String → String) : String :=
  getEnv osEnv "PROVISIONER_ISSUER" defaultIdentity

/-- The PersistentVolume literal built at main.go:59-78.  The capacity is the
`storage` entry of the request map (a missing entry yields the zero
quantity, Go map semantics); the reclaim policy is the dereferenced
`*options.StorageClass.ReclaimPolicy`, passed in here already unwrapped. -/
def buildPV (p : hostPathProvisioner) (options : ProvisionOptions) (path rp : String) :
    PersistentVolume :=
  { name := options.pvName
    annotations := [("hostPathProvisionerIdentity", p.identity)]
    reclaimPolicy := rp
    accessModes := options.pvc.spec.accessModes
    capacityStorage := (lookupAssoc options.pvc.spec.requests "storage").getD ""
    hostPath := some path }

/-- Continuation of `Provision` after the `os.MkdirAll` call (main.go:54-80):
chmod the path,
then build the volume, dereferencing the reclaim-policy pointer (a nil
pointer panics). -/
def provisionAfterMkdir (p : hostPathProvisioner) (env : FsEnv)
    (options : ProvisionOptions) (path : String) (fs1 : List String) :
    ProvisionResult × List String :=
  match env.chmodErr path with
  | some e => (ProvisionResult.err e, fs1)
  | none =>
    match options.storageClass.reclaimPolicy with
    | none => (ProvisionResult.panics, fs1)
    | some rp => (ProvisionResult.ok (buildPV p options path rp), fs1)

/-- Source `Provision` (main.go:44-81): derive the path, `os.MkdirAll(path, 0777)`
treating an already-exists error as success, `os.Chmod(path, 0777)`, and
return the built PersistentVolume. -/
def Provision (p : hostPathProvisioner) (env : FsEnv) (options : ProvisionOptions)
    (fs : List String) : ProvisionResult × List String :=
  let path := pvPath p.pvDir options.pvc.namespace_ options.pvc.name
  match env.mkdirErr path with
  | some (MkdirOutcome.fail e) => (ProvisionResult.err e, fs)
  | some MkdirOutcome.exist => provisionAfterMkdir p env options path fs
  | none => provisionAfterMkdir p env options path (mkdirAllState fs path)

/-- Source `Delete` (main.go:83-98): read the identity annotation under key
`"hostPathProvisionerIdentity"`; missing → hard error; mismatched →
`controller.IgnoredError`; matched → `os.RemoveAll` on the HostPath path,
wrapping a removal failure with "removing hostpath PV". -/
def Delete (p : hostPathProvisioner) (env : FsEnv) (volume : PersistentVolume)
    (fs : List String) : DeleteResult × List String :=
  match lookupAssoc volume.annotations "hostPathProvisionerIdentity" with
  | none => (DeleteResult.err (GoError.simple "identity annotation not found on PV"), fs)
  | some ann =>
    if ann ≠ p.identity then
      (DeleteResult.ignored "identity annotation on PV does not match ours", fs)
    else
      match volume.hostPath with
      | none => (DeleteResult.panics, fs)
      | some path =>
        match env.removeErr path with
        | some e => (DeleteResult.err (GoError.wrapped "removing hostpath PV" e), fs)
        | none => (DeleteResult.ok, removeAllState fs path)

/-- A plain path segment: nonempty, slash-free, not a dot component. -/
abbrev isSeg (s : String) : Prop :=
  s ≠ "" ∧ '/' ∉ s.data ∧ s ≠ "." ∧ s ≠ ".."

theorem splitChar_ne_nil (sep : Char) (l : List Char) : splitChar sep l ≠ [] := by
  cases l with
  | nil => simp [splitChar]
  | cons c rest =>
    simp only [splitChar]
    cases splitChar sep rest with
    | nil => simp
    | cons h t => by_cases hc : c = sep <;> simp [hc]

theorem splitChar_append (sep : Char) (a b : List Char) :
    splitChar sep (a ++ sep :: b) = splitChar sep a ++ splitChar sep b := by
  induction a with
  | nil =>
    cases hb : splitChar sep b with
    | nil => exact absurd hb (splitChar_ne_nil sep b)
    | cons h t => simp [splitChar, hb]
  | cons c a2 ih =>
    cases ha : splitChar sep a2 with
    | nil => exact absurd ha (splitChar_ne_nil sep a2)
    | cons h t =>
      by_cases hc : c = sep <;>
        simp [splitChar, ha, ih, hc, List.cons_append]

theorem splitChar_no_sep (sep : Char) (l : List Char) (h : sep ∉ l) :
    splitChar sep l = [l] := by
  induction l with
  | nil => rfl
  | cons c rest ih =>
    have h1 : ¬c = sep := fun hc => h (List.mem_cons.mpr (Or.inl hc.symm))
    have h2 : sep ∉ rest := fun hm => h (List.mem_cons_of_mem c hm)
    simp [splitChar, ih h2, h1]

theorem cleanStack_append (r : Bool) (s xs ys : List (List Char)) :
    cleanStack r s (xs ++ ys) = cleanStack r (cleanStack r s xs) ys := by
  simp [cleanStack, List.foldl_append]

theorem cleanStep_empty (r : Bool) (s : List (List Char)) : cleanStep r s [] = s := by
  simp [cleanStep]

theorem cleanStep_seg (r : Bool) (s : List (List Char)) (c : List Char)
    (h0 : c ≠ []) (h1 : c ≠ ['.']) (h2 : c ≠ ['.', '.']) :
    cleanStep r s c = c :: s := by
  simp [cleanStep, h0, h1, h2]

theorem cleanStack_single (r : Bool) (s : List (List Char)) (c : List Char) :
    cleanStack r s [c] = cleanStep r s c := rfl

theorem joinComps_append_single (A : List (List Char)) (x : List Char) :
    joinComps (A ++ [x]) = if A = [] then x else joinComps A ++ '/' :: x := by
  induction A with
  | nil => simp [joinComps]
  | cons a A2 ih =>
    cases A2 with
    | nil => simp [joinComps]
    | cons b B =>
      have h1 : joinComps ((a :: b :: B) ++ [x]) = a ++ '/' :: joinComps ((b :: B) ++ [x]) :=
        rfl
      rw [h1, ih]
      simp [joinComps, List.append_assoc]

theorem data_ne_of_ne {s t : String} (h : s ≠ t) : s.data ≠ t.data :=
  fun hd => h (String.ext hd)

/-- The value of `goCleanData` is determined by the rooted flag and the final component
stack. -/
theorem goCleanData_congr (p q : List Char)
    (hroot : isRooted p = isRooted q)
    (hstack : cleanStack (isRooted p) [] (splitChar '/' p)
      = cleanStack (isRooted q) [] (splitChar '/' q)) :
    goCleanData p = goCleanData q := by
  simp only [goCleanData]
  rw [hstack, hroot]

/-- Appending `"/" ++ s` for a plain segment `s` preserves being a fixed
point of `goClean`, away from the degenerate roots `"/"` and `"."`. -/
theorem goClean_append_seg (root s : String)
    (hr : goClean root = root) (h1 : root ≠ "/") (h2 : root ≠ ".") (hs : isSeg s) :
    goClean (root ++ "/" ++ s) = root ++ "/" ++ s ∧
      root ++ "/" ++ s ≠ "/" ∧ root ++ "/" ++ s ≠ "." := by
  obtain ⟨hs0, hs1, hs2, hs3⟩ := hs
  have hroot0 : root ≠ "" := by
    intro h; rw [h] at hr; exact absurd hr (by decide)
  have hsd0 : s.data ≠ [] := data_ne_of_ne hs0
  have hsd1 : s.data ≠ ['.'] := data_ne_of_ne hs2
  have hsd2 : s.data ≠ ['.', '.'] := data_ne_of_ne hs3
  have hrd0 : root.data ≠ [] := data_ne_of_ne hroot0
  have hdata : (root ++ "/" ++ s).data = root.data ++ '/' :: s.data := by
    rw [String.data_append, String.data_append, List.append_assoc]
    rfl
  have hlen : 2 ≤ (root.data ++ '/' :: s.data).length := by
    rw [List.length_append]
    have h3 : 0 < root.data.length := List.length_pos.mpr hrd0
    simp only [List.length_cons]
    omega
  have hshort : ∀ t : String, t.data.length < 2 → root ++ "/" ++ s ≠ t := by
    intro t ht h
    have hd := congrArg String.data h
    rw [hdata] at hd
    rw [hd] at hlen
    omega
  have hne2 : root ++ "/" ++ s ≠ "" := hshort "" (by decide)
  refine ⟨?_, hshort "/" (by decide), hshort "." (by decide)⟩
  -- the fixed-point equation
  have hgcd : goCleanData root.data = root.data := by
    rw [goClean, if_neg hroot0] at hr
    exact congrArg String.data hr
  have hrooted : isRooted (root.data ++ '/' :: s.data) = isRooted root.data := by
    cases hc : root.data with
    | nil => exact absurd hc hrd0
    | cons c l => simp [isRooted]
  have hsplit : splitChar '/' (root.data ++ '/' :: s.data)
      = splitChar '/' root.data ++ [s.data] := by
    rw [splitChar_append, splitChar_no_sep '/' s.data hs1]
  have hstack : cleanStack (isRooted root.data) []
        (splitChar '/' root.data ++ [s.data])
      = s.data :: cleanStack (isRooted root.data) [] (splitChar '/' root.data) := by
    rw [cleanStack_append, cleanStack_single,
      cleanStep_seg _ _ _ hsd0 hsd1 hsd2]
  rw [goClean, if_neg hne2, hdata]
  apply String.ext
  rw [hdata]
  show goCleanData (root.data ++ '/' :: s.data) = root.data ++ '/' :: s.data
  simp only [goCleanData] at hgcd ⊢
  rw [hrooted, hsplit, hstack, List.reverse_cons, joinComps_append_single]
  cases hR : isRooted root.data with
  | true =>
    rw [hR] at hgcd
    simp only [if_true] at hgcd ⊢
    by_cases hb : joinComps (cleanStack true [] (splitChar '/' root.data)).reverse = []
    · rw [if_pos hb] at hgcd
      exact absurd (String.ext hgcd.symm) h1
    · rw [if_neg hb] at hgcd
      have hrev : (cleanStack true [] (splitChar '/' root.data)).reverse ≠ [] := by
        intro h; rw [h] at hb; exact hb rfl
      rw [if_neg hrev]
      have hb2 : joinComps (cleanStack true [] (splitChar '/' root.data)).reverse
          ++ '/' :: s.data ≠ [] := by simp
      rw [if_neg hb2]
      conv_rhs => rw [← hgcd]
      simp
  | false =>
    rw [hR] at hgcd
    simp only [if_false, Bool.false_eq_true] at hgcd ⊢
    by_cases hb : joinComps (cleanStack false [] (splitChar '/' root.data)).reverse = []
    · rw [if_pos hb] at hgcd
      exact absurd (String.ext hgcd.symm) h2
    · rw [if_neg hb] at hgcd
      have hrev : (cleanStack false [] (splitChar '/' root.data)).reverse ≠ [] := by
        intro h; rw [h] at hb; exact hb rfl
      rw [if_neg hrev]
      have hb2 : joinComps (cleanStack false [] (splitChar '/' root.data)).reverse
          ++ '/' :: s.data ≠ [] := by simp
      rw [if_neg hb2, hgcd]

theorem goClean_ne_empty (p : String) : goClean p ≠ "" := by
  rw [goClean]
  by_cases h : p = ""
  · rw [if_pos h]; decide
  · rw [if_neg h]
    intro hc
    have hd := congrArg String.data hc
    have : goCleanData p.data = [] := hd
    rw [goCleanData] at this
    by_cases hR : isRooted p.data <;> simp [hR] at this <;> split at this <;>
      simp_all

/-- Evaluation of `joinStrings` on a three-element list, reassociated. -/
theorem joinStrings_three (a b c : String) :
    joinStrings [a, b, c] = a ++ "/" ++ b ++ "/" ++ c := by
  apply String.ext
  simp [joinStrings, String.data_append, List.append_assoc]

/-- The backing path on a cleaned root and plain segments is the literal
`root/namespace/claimName`. -/
theorem pvPath_eq_of_segs (root ns name : String)
    (hr : goClean root = root) (h1 : root ≠ "/") (h2 : root ≠ ".")
    (hns : isSeg ns) (hname : isSeg name) :
    pvPath root ns name = root ++ "/" ++ ns ++ "/" ++ name := by
  have hroot0 : root ≠ "" := by
    intro h; rw [h] at hr; exact absurd hr (by decide)
  have step1 := goClean_append_seg root ns hr h1 h2 hns
  have step2 := goClean_append_seg (root ++ "/" ++ ns) name step1.1 step1.2.1 step1.2.2 hname
  rw [pvPath, goJoin, if_neg hroot0, joinStrings_three]
  exact step2.1

theorem isRooted_append (a b : List Char) (h : a ≠ []) :
    isRooted (a ++ b) = isRooted a := by
  cases a with
  | nil => exact absurd rfl h
  | cons c l => simp [isRooted]

theorem splitChar_cons_sep (sep : Char) (l : List Char) :
    splitChar sep (sep :: l) = [] :: splitChar sep l := by
  cases h : splitChar sep l with
  | nil => exact absurd h (splitChar_ne_nil sep l)
  | cons a t => simp [splitChar, h]

/-- An empty component is a no-op for the `path.Clean` stack. -/
theorem cleanStack_skip_nil_comp (r : Bool) (st A B : List (List Char)) :
    cleanStack r st (A ++ [] :: B) = cleanStack r st (A ++ B) := by
  rw [cleanStack_append, cleanStack_append]
  show cleanStack r (cleanStep r (cleanStack r st A) []) B = _
  rw [cleanStep_empty]

theorem slash_data : ("/" : String).data = ['/'] := rfl

theorem empty_data : ("" : String).data = [] := rfl

/-- An empty middle element of `path.Join` is dropped. -/
theorem goJoin_mid_empty (root x : String) :
    goJoin [root, "", x] = goJoin [root, x] := by
  by_cases h : root = ""
  · subst h; simp [goJoin]
  · have hrd0 : root.data ≠ [] := data_ne_of_ne h
    have hd1 : (joinStrings [root, "", x]).data = root.data ++ '/' :: '/' :: x.data := by
      simp [joinStrings, String.data_append, slash_data, empty_data, List.append_assoc]
    have hd2 : (joinStrings [root, x]).data = root.data ++ '/' :: x.data := by
      simp [joinStrings, String.data_append, slash_data, List.append_assoc]
    have hne1 : joinStrings [root, "", x] ≠ "" := by
      intro hc; have hcd := congrArg String.data hc; rw [hd1] at hcd; simp at hcd
    have hne2 : joinStrings [root, x] ≠ "" := by
      intro hc; have hcd := congrArg String.data hc; rw [hd2] at hcd; simp at hcd
    simp only [goJoin, if_neg h]
    rw [goClean, goClean, if_neg hne1, if_neg hne2, hd1, hd2]
    congr 1
    apply goCleanData_congr
    · rw [isRooted_append _ _ hrd0, isRooted_append _ _ hrd0]
    · rw [isRooted_append _ _ hrd0, isRooted_append _ _ hrd0]
      rw [splitChar_append, splitChar_append, splitChar_cons_sep]
      exact cleanStack_skip_nil_comp _ _ _ _

/-- A trailing empty element of a two-element `path.Join` is dropped. -/
theorem goJoin_two_last_empty (x : String) : goJoin [x, ""] = goJoin [x] := by
  by_cases hx : x = ""
  · subst hx; simp [goJoin]
  · have hxd : x.data ≠ [] := data_ne_of_ne hx
    have hd1 : (joinStrings [x, ""]).data = x.data ++ ['/'] := by
      simp [joinStrings, String.data_append, slash_data, empty_data]
    have hne1 : joinStrings [x, ""] ≠ "" := by
      intro hc; have hcd := congrArg String.data hc; rw [hd1] at hcd; simp at hcd
    simp only [goJoin, if_neg hx]
    rw [goClean, goClean, if_neg hne1, if_neg (show joinStrings [x] ≠ "" from hx)]
    congr 1
    rw [hd1]
    apply goCleanData_congr
    · rw [isRooted_append _ _ hxd]; rfl
    · rw [isRooted_append _ _ hxd]
      rw [show (['/'] : List Char) = '/' :: [] from rfl, splitChar_append]
      rw [show splitChar '/' ([] : List Char) = [[]] from rfl]
      have h2 := cleanStack_skip_nil_comp (isRooted x.data) [] (splitChar '/' x.data) []
      simpa using h2

/-- An empty final element of a three-element `path.Join` is dropped. -/
theorem goJoin_last_empty (root x : String) :
    goJoin [root, x, ""] = goJoin [root, x] := by
  by_cases h : root = ""
  · subst h
    show goJoin [x, ""] = goJoin [x]
    exact goJoin_two_last_empty x
  · have hrd0 : root.data ≠ [] := data_ne_of_ne h
    have hd1 : (joinStrings [root, x, ""]).data = root.data ++ '/' :: (x.data ++ ['/']) := by
      simp [joinStrings, String.data_append, slash_data, empty_data, List.append_assoc]
    have hd2 : (joinStrings [root, x]).data = root.data ++ '/' :: x.data := by
      simp [joinStrings, String.data_append, slash_data, List.append_assoc]
    have hne1 : joinStrings [root, x, ""] ≠ "" := by
      intro hc; have hcd := congrArg String.data hc; rw [hd1] at hcd; simp at hcd
    have hne2 : joinStrings [root, x] ≠ "" := by
      intro hc; have hcd := congrArg String.data hc; rw [hd2] at hcd; simp at hcd
    simp only [goJoin, if_neg h]
    rw [goClean, goClean, if_neg hne1, if_neg hne2, hd1, hd2]
    congr 1
    apply goCleanData_congr
    · rw [isRooted_append _ _ hrd0, isRooted_append _ _ hrd0]
    · rw [isRooted_append _ _ hrd0, isRooted_append _ _ hrd0]
      rw [splitChar_append, splitChar_append, splitChar_append]
      rw [show splitChar '/' ([] : List Char) = [[]] from rfl, ← List.append_assoc]
      have h2 := cleanStack_skip_nil_comp (isRooted root.data) []
        (splitChar '/' root.data ++ splitChar '/' x.data) []
      simpa using h2

/-- With both namespace and claim name empty, the derived path is the
cleaned root itself. -/
theorem pvPath_empty_empty (root : String) (hr : goClean root = root) :
    pvPath root "" "" = root := by
  have hroot0 : root ≠ "" := by
    intro h; rw [h] at hr; exact absurd hr (by decide)
  rw [pvPath, goJoin_mid_empty, goJoin_two_last_empty]
  simp only [goJoin, if_neg hroot0]
  show goClean (joinStrings [root]) = root
  rw [show joinStrings [root] = root from rfl, hr]

theorem mem_removeAllState (fs : List String) (p q : String) :
    q ∈ removeAllState fs p ↔ q ∈ fs ∧ q ≠ p ∧ isUnder p q = false := by
  simp [removeAllState, List.mem_filter, not_or]

theorem removeAllState_id_of_absent (fs : List String) (p : String)
    (h : ∀ q ∈ fs, q ≠ p ∧ isUnder p q = false) :
    removeAllState fs p = fs := by
  apply List.filter_eq_self.mpr
  intro q hq
  obtain ⟨h1, h2⟩ := h q hq
  simp [h1, h2]

theorem Provision_mkdir_none (p : hostPathProvisioner) (env : FsEnv)
    (o : ProvisionOptions) (fs : List String)
    (hmk : env.mkdirErr (pvPath p.pvDir o.pvc.namespace_ o.pvc.name) = none) :
    Provision p env o fs = provisionAfterMkdir p env o
      (pvPath p.pvDir o.pvc.namespace_ o.pvc.name)
      (mkdirAllState fs (pvPath p.pvDir o.pvc.namespace_ o.pvc.name)) := by
  simp only [Provision]
  rw [hmk]

theorem Provision_mkdir_exist (p : hostPathProvisioner) (env : FsEnv)
    (o : ProvisionOptions) (fs : List String)
    (hmk : env.mkdirErr (pvPath p.pvDir o.pvc.namespace_ o.pvc.name)
      = some MkdirOutcome.exist) :
    Provision p env o fs = provisionAfterMkdir p env o
      (pvPath p.pvDir o.pvc.namespace_ o.pvc.name) fs := by
  simp only [Provision]
  rw [hmk]

theorem Provision_mkdir_fail (p : hostPathProvisioner) (env : FsEnv)
    (o : ProvisionOptions) (fs : List String) (e : PathErr)
    (hmk : env.mkdirErr (pvPath p.pvDir o.pvc.namespace_ o.pvc.name)
      = some (MkdirOutcome.fail e)) :
    Provision p env o fs = (ProvisionResult.err e, fs) := by
  simp only [Provision]
  rw [hmk]

theorem provisionAfterMkdir_ok (p : hostPathProvisioner) (env : FsEnv)
    (o : ProvisionOptions) (path : String) (fs1 : List String) (rp : String)
    (hch : env.chmodErr path = none)
    (hrp : o.storageClass.reclaimPolicy = some rp) :
    provisionAfterMkdir p env o path fs1
      = (ProvisionResult.ok (buildPV p o path rp), fs1) := by
  simp only [provisionAfterMkdir]
  rw [hch, hrp]

theorem provisionAfterMkdir_chmod_err (p : hostPathProvisioner) (env : FsEnv)
    (o : ProvisionOptions) (path : String) (fs1 : List String) (e : PathErr)
    (hch : env.chmodErr path = some e) :
    provisionAfterMkdir p env o path fs1 = (ProvisionResult.err e, fs1) := by
  simp only [provisionAfterMkdir]
  rw [hch]

theorem provisionAfterMkdir_panics (p : hostPathProvisioner) (env : FsEnv)
    (o : ProvisionOptions) (path : String) (fs1 : List String)
    (hch : env.chmodErr path = none)
    (hrp : o.storageClass.reclaimPolicy = none) :
    provisionAfterMkdir p env o path fs1 = (ProvisionResult.panics, fs1) := by
  simp only [provisionAfterMkdir]
  rw [hch, hrp]

/-- Inversion: any successful `Provision` result is the literal PV built from
the provisioner, the options and the derived path, for the dereferenced
reclaim policy. -/
theorem Provision_ok_inv (p : hostPathProvisioner) (env : FsEnv)
    (o : ProvisionOptions) (fs fs2 : List String) (pv : PersistentVolume)
    (h : Provision p env o fs = (ProvisionResult.ok pv, fs2)) :
    ∃ rp, o.storageClass.reclaimPolicy = some rp ∧
      pv = buildPV p o (pvPath p.pvDir o.pvc.namespace_ o.pvc.name) rp := by
  simp only [Provision, provisionAfterMkdir] at h
  cases hmk : env.mkdirErr (pvPath p.pvDir o.pvc.namespace_ o.pvc.name) with
  | none =>
    rw [hmk] at h
    cases hch : env.chmodErr (pvPath p.pvDir o.pvc.namespace_ o.pvc.name) with
    | none =>
      rw [hch] at h
      cases hrp : o.storageClass.reclaimPolicy with
      | none => rw [hrp] at h; simp at h
      | some rp =>
        rw [hrp] at h
        simp at h
        exact ⟨rp, rfl, h.1.symm⟩
    | some e => rw [hch] at h; simp at h
  | some outcome =>
    cases outcome with
    | exist =>
      rw [hmk] at h
      cases hch : env.chmodErr (pvPath p.pvDir o.pvc.namespace_ o.pvc.name) with
      | none =>
        rw [hch] at h
        cases hrp : o.storageClass.reclaimPolicy with
        | none => rw [hrp] at h; simp at h
        | some rp =>
          rw [hrp] at h
          simp at h
          exact ⟨rp, rfl, h.1.symm⟩
      | some e => rw [hch] at h; simp at h
    | fail e => rw [hmk] at h; simp at h

/-- C1: a volume whose identity annotation is present but differs from the
configured identity marker is declined by `Delete` with the distinguished
`IgnoredError` ("not mine") outcome, not a hard error, and the filesystem
state is left untouched (no removal is performed). -/
theorem delete_foreign_identity_ignored (p : hostPathProvisioner) (env : FsEnv)
    (volume : PersistentVolume) (fs : List String) (ann : String)
    (hlook : lookupAssoc volume.annotations "hostPathProvisionerIdentity" = some ann)
    (hne : ann ≠ p.identity) :
    Delete p env volume fs
      = (DeleteResult.ignored "identity annotation on PV does not match ours", fs) := by
  simp only [Delete]
  rw [hlook]
  simp [hne]

theorem delete_foreign_identity_ignored_witness :
    Delete ⟨"/data", "hostpath-provisioner"⟩
        ⟨fun _ => none, fun _ => none, fun _ => none⟩
        { name := "pv-1",
          annotations := [("hostPathProvisionerIdentity", "other-instance")],
          reclaimPolicy := "Delete", accessModes := ["ReadWriteOnce"],
          capacityStorage := "1Gi", hostPath := some "/data/ns1/pvc-a" }
        ["/data/ns1/pvc-a"]
      = (DeleteResult.ignored "identity annotation on PV does not match ours",
          ["/data/ns1/pvc-a"]) :=
  delete_foreign_identity_ignored _ _ _ _ "other-instance" (by decide) (by decide)

/-- C2 counterexample: on a descriptor with no identity annotation, `Delete`
does fail hard, but the error message is "identity annotation not found on
PV" (main.go:87), not the exact message "identity annotation not found"
stated in the claim. -/
theorem delete_missing_annot_msg_counterexample :
    (Delete ⟨"/data", "hostpath-provisioner"⟩
        ⟨fun _ => none, fun _ => none, fun _ => none⟩
        { name := "pv-1", annotations := [],
          reclaimPolicy := "Delete", accessModes := ["ReadWriteOnce"],
          capacityStorage := "1Gi", hostPath := some "/data/ns1/pvc-a" }
        ["/data/ns1/pvc-a"]).1
      = DeleteResult.err (GoError.simple "identity annotation not found on PV") ∧
    "identity annotation not found on PV" ≠ "identity annotation not found" := by
  constructor
  · rfl
  · decide

/-- C2 (amended): a descriptor carrying no identity annotation makes `Delete`
fail with the hard error `errors.New "identity annotation not found on PV"`
(the InvariantViolation of the spec), and the filesystem state is left
untouched. -/
theorem delete_missing_annot_hard_error (p : hostPathProvisioner) (env : FsEnv)
    (volume : PersistentVolume) (fs : List String)
    (hlook : lookupAssoc volume.annotations "hostPathProvisionerIdentity" = none) :
    Delete p env volume fs
      = (DeleteResult.err (GoError.simple "identity annotation not found on PV"), fs) := by
  simp only [Delete]
  rw [hlook]

theorem delete_missing_annot_hard_error_witness :
    Delete ⟨"/data", "hostpath-provisioner"⟩
        ⟨fun _ => none, fun _ => none, fun _ => none⟩
        { name := "pv-1", annotations := [("someOtherKey", "v")],
          reclaimPolicy := "Delete", accessModes := ["ReadWriteOnce"],
          capacityStorage := "1Gi", hostPath := some "/data/ns1/pvc-a" }
        ["/data/ns1/pvc-a"]
      = (DeleteResult.err (GoError.simple "identity annotation not found on PV"),
          ["/data/ns1/pvc-a"]) :=
  delete_missing_annot_hard_error _ _ _ _ (by decide)

/-- C3: on a descriptor whose identity annotation equals the configured
marker, `Delete` removes the HostPath directory tree recursively and returns
success; success also covers a path that is already absent (the state is
unchanged and the result is still ok), and a removal failure is propagated
wrapped with the context "removing hostpath PV". -/
theorem delete_owned_removes_tree (p : hostPathProvisioner) (env : FsEnv)
    (volume : PersistentVolume) (fs : List String) (path : String)
    (hlook : lookupAssoc volume.annotations "hostPathProvisionerIdentity"
      = some p.identity)
    (hhp : volume.hostPath = some path) :
    (env.removeErr path = none →
      Delete p env volume fs = (DeleteResult.ok, removeAllState fs path) ∧
      (∀ q, q ∈ removeAllState fs path ↔ q ∈ fs ∧ q ≠ path ∧ isUnder path q = false)) ∧
    (env.removeErr path = none → (∀ q ∈ fs, q ≠ path ∧ isUnder path q = false) →
      Delete p env volume fs = (DeleteResult.ok, fs)) ∧
    (∀ e, env.removeErr path = some e →
      Delete p env volume fs
        = (DeleteResult.err (GoError.wrapped "removing hostpath PV" e), fs)) := by
  have hbase : ∀ r, env.removeErr path = r →
      Delete p env volume fs
        = (match r with
            | some e => (DeleteResult.err (GoError.wrapped "removing hostpath PV" e), fs)
            | none => (DeleteResult.ok, removeAllState fs path)) := by
    intro r hr
    simp only [Delete]
    rw [hlook]
    simp only [ne_eq, not_true_eq_false, if_false]
    rw [hhp]
    show (match env.removeErr path with
      | some e => (DeleteResult.err (GoError.wrapped "removing hostpath PV" e), fs)
      | none => (DeleteResult.ok, removeAllState fs path)) = _
    rw [hr]
  refine ⟨fun hr => ⟨hbase none hr, fun q => mem_removeAllState fs path q⟩,
    fun hr habs => ?_, fun e hr => hbase (some e) hr⟩
  rw [hbase none hr, removeAllState_id_of_absent fs path habs]

theorem delete_owned_removes_tree_witness :
    (Delete ⟨"/data", "hostpath-provisioner"⟩
        ⟨fun _ => none, fun _ => none, fun _ => none⟩
        { name := "pv-1",
          annotations := [("hostPathProvisionerIdentity", "hostpath-provisioner")],
          reclaimPolicy := "Delete", accessModes := ["ReadWriteOnce"],
          capacityStorage := "1Gi", hostPath := some "/data/ns1/pvc-a" }
        ["/data/ns1/pvc-a", "/data/ns1/pvc-a/file1", "/data/ns2/pvc-b"]
      = (DeleteResult.ok, removeAllState
          ["/data/ns1/pvc-a", "/data/ns1/pvc-a/file1", "/data/ns2/pvc-b"]
          "/data/ns1/pvc-a")) ∧
    ("/data/ns2/pvc-b" ∈ removeAllState
        ["/data/ns1/pvc-a", "/data/ns1/pvc-a/file1", "/data/ns2/pvc-b"]
        "/data/ns1/pvc-a"
      ↔ "/data/ns2/pvc-b"
          ∈ ["/data/ns1/pvc-a", "/data/ns1/pvc-a/file1", "/data/ns2/pvc-b"]
        ∧ "/data/ns2/pvc-b" ≠ "/data/ns1/pvc-a"
        ∧ isUnder "/data/ns1/pvc-a" "/data/ns2/pvc-b" = false) :=
  ⟨((delete_owned_removes_tree _ _ _ _ "/data/ns1/pvc-a" (by decide) (by decide)).1
      rfl).1,
    ((delete_owned_removes_tree ⟨"/data", "hostpath-provisioner"⟩
        ⟨fun _ => none, fun _ => none, fun _ => none⟩
        { name := "pv-1",
          annotations := [("hostPathProvisionerIdentity", "hostpath-provisioner")],
          reclaimPolicy := "Delete", accessModes := ["ReadWriteOnce"],
          capacityStorage := "1Gi", hostPath := some "/data/ns1/pvc-a" }
        ["/data/ns1/pvc-a", "/data/ns1/pvc-a/file1", "/data/ns2/pvc-b"]
        "/data/ns1/pvc-a" (by decide) (by decide)).1 rfl).2 "/data/ns2/pvc-b"⟩

/-- C4 counterexample: the derived backing path does not literally equal
`root ++ "/" ++ namespace ++ "/" ++ claimName` for every input: at
root `"/data"` with empty namespace and claim name, `path.Join` drops the
empty components and cleans, yielding `"/data"`, not `"/data//"`. -/
theorem pvPath_literal_counterexample :
    pvPath "/data" "" "" = "/data" ∧
      pvPath "/data" "" "" ≠ "/data" ++ "/" ++ "" ++ "/" ++ "" := by
  constructor
  · rfl
  · decide

/-- C4 (amended): the backing path derived by `Provision` is
`path.Join(root, namespace, claimName)`, a pure function of exactly those
three values and identical across repeated calls for the same claim (every
successful `Provision` records exactly this path); on a cleaned root (other
than `"/"` and `"."`) and plain path segments it equals the literal
`root/namespace/claimName`. -/
theorem pvPath_pure_function :
    (∀ root ns name, goClean root = root → root ≠ "/" → root ≠ "." →
      isSeg ns → isSeg name →
      pvPath root ns name = root ++ "/" ++ ns ++ "/" ++ name) ∧
    (∀ (p : hostPathProvisioner) (env : FsEnv) (o : ProvisionOptions)
        (fs fs2 : List String) (pv : PersistentVolume),
      Provision p env o fs = (ProvisionResult.ok pv, fs2) →
      pv.hostPath = some (pvPath p.pvDir o.pvc.namespace_ o.pvc.name)) := by
  refine ⟨pvPath_eq_of_segs, ?_⟩
  intro p env o fs fs2 pv h
  obtain ⟨rp, _, hpv⟩ := Provision_ok_inv p env o fs fs2 pv h
  rw [hpv]
  rfl

theorem pvPath_pure_function_witness :
    pvPath "/data" "ns1" "pvc-a" = "/data" ++ "/" ++ "ns1" ++ "/" ++ "pvc-a" ∧
    PersistentVolume.hostPath
        { name := "pv-1",
          annotations := [("hostPathProvisionerIdentity", "hostpath-provisioner")],
          reclaimPolicy := "Delete", accessModes := ["ReadWriteOnce"],
          capacityStorage := "1Gi", hostPath := some "/data/ns1/pvc-a" }
      = some (pvPath "/data" "ns1" "pvc-a") :=
  ⟨pvPath_pure_function.1 "/data" "ns1" "pvc-a" (by decide) (by decide) (by decide)
      (by decide) (by decide),
    pvPath_pure_function.2 ⟨"/data", "hostpath-provisioner"⟩
      ⟨fun _ => none, fun _ => none, fun _ => none⟩
      { storageClass := ⟨some "Delete"⟩, pvName := "pv-1",
        pvc := { namespace_ := "ns1", name := "pvc-a",
                 spec := { accessModes := ["ReadWriteOnce"],
                           requests := [("storage", "1Gi")] } } }
      [] ["/data/ns1/pvc-a"] _ (by decide)⟩

/-- C5: `Provision` is idempotent with respect to directory creation: when
the create step reports plain success or "already exists" (both treated as
success) and chmod succeeds, provisioning the same claim twice in a row
succeeds both times and produces the same volume descriptor. -/
theorem provision_idempotent_retry (p : hostPathProvisioner) (env1 env2 : FsEnv)
    (o : ProvisionOptions) (fs : List String) (rp : String)
    (hmk1 : env1.mkdirErr (pvPath p.pvDir o.pvc.namespace_ o.pvc.name) = none
      ∨ env1.mkdirErr (pvPath p.pvDir o.pvc.namespace_ o.pvc.name)
        = some MkdirOutcome.exist)
    (hch1 : env1.chmodErr (pvPath p.pvDir o.pvc.namespace_ o.pvc.name) = none)
    (hmk2 : env2.mkdirErr (pvPath p.pvDir o.pvc.namespace_ o.pvc.name) = none
      ∨ env2.mkdirErr (pvPath p.pvDir o.pvc.namespace_ o.pvc.name)
        = some MkdirOutcome.exist)
    (hch2 : env2.chmodErr (pvPath p.pvDir o.pvc.namespace_ o.pvc.name) = none)
    (hrp : o.storageClass.reclaimPolicy = some rp) :
    ∃ pv fs1 fs2, Provision p env1 o fs = (ProvisionResult.ok pv, fs1) ∧
      Provision p env2 o fs1 = (ProvisionResult.ok pv, fs2) := by
  refine ⟨buildPV p o (pvPath p.pvDir o.pvc.namespace_ o.pvc.name) rp, ?_⟩
  have run : ∀ (env : FsEnv) (fsx : List String),
      (env.mkdirErr (pvPath p.pvDir o.pvc.namespace_ o.pvc.name) = none
        ∨ env.mkdirErr (pvPath p.pvDir o.pvc.namespace_ o.pvc.name)
          = some MkdirOutcome.exist) →
      env.chmodErr (pvPath p.pvDir o.pvc.namespace_ o.pvc.name) = none →
      ∃ fsy, Provision p env o fsx
        = (ProvisionResult.ok
            (buildPV p o (pvPath p.pvDir o.pvc.namespace_ o.pvc.name) rp), fsy) := by
    intro env fsx hmk hch
    cases hmk with
    | inl hnone =>
      exact ⟨_, by rw [Provision_mkdir_none p env o fsx hnone,
        provisionAfterMkdir_ok p env o _ _ rp hch hrp]⟩
    | inr hexist =>
      exact ⟨_, by rw [Provision_mkdir_exist p env o fsx hexist,
        provisionAfterMkdir_ok p env o _ _ rp hch hrp]⟩
  obtain ⟨fs1, h1⟩ := run env1 fs hmk1 hch1
  obtain ⟨fs2, h2⟩ := run env2 fs1 hmk2 hch2
  exact ⟨fs1, fs2, h1, h2⟩

theorem provision_idempotent_retry_witness :
    ∃ pv fs1 fs2,
      Provision ⟨"/data", "hostpath-provisioner"⟩
          ⟨fun _ => none, fun _ => none, fun _ => none⟩
          { storageClass := ⟨some "Delete"⟩, pvName := "pv-1",
            pvc := { namespace_ := "ns1", name := "pvc-a",
                     spec := { accessModes := ["ReadWriteOnce"],
                               requests := [("storage", "1Gi")] } } }
          [] = (ProvisionResult.ok pv, fs1) ∧
      Provision ⟨"/data", "hostpath-provisioner"⟩
          ⟨fun _ => none, fun _ => none, fun _ => none⟩
          { storageClass := ⟨some "Delete"⟩, pvName := "pv-1",
            pvc := { namespace_ := "ns1", name := "pvc-a",
                     spec := { accessModes := ["ReadWriteOnce"],
                               requests := [("storage", "1Gi")] } } }
          fs1 = (ProvisionResult.ok pv, fs2) :=
  provision_idempotent_retry _ _ _ _ _ "Delete" (Or.inl rfl) rfl (Or.inl rfl) rfl
    (by decide)

/-- C6: every volume descriptor returned successfully by `Provision` carries
the configured identity marker under annotation key
`"hostPathProvisionerIdentity"`; its capacity is the request's storage
resource entry, its access modes and reclaim policy are echoed verbatim
from the request, its HostPath source is the computed path, and its name is
the requested volume name. -/
theorem provision_descriptor_fields (p : hostPathProvisioner) (env : FsEnv)
    (o : ProvisionOptions) (fs fs2 : List String) (pv : PersistentVolume)
    (h : Provision p env o fs = (ProvisionResult.ok pv, fs2)) :
    lookupAssoc pv.annotations "hostPathProvisionerIdentity" = some p.identity ∧
    pv.capacityStorage = (lookupAssoc o.pvc.spec.requests "storage").getD "" ∧
    pv.accessModes = o.pvc.spec.accessModes ∧
    o.storageClass.reclaimPolicy = some pv.reclaimPolicy ∧
    pv.hostPath = some (pvPath p.pvDir o.pvc.namespace_ o.pvc.name) ∧
    pv.name = o.pvName := by
  obtain ⟨rp, hrp, hpv⟩ := Provision_ok_inv p env o fs fs2 pv h
  subst hpv
  exact ⟨by simp [buildPV, lookupAssoc], rfl, rfl, hrp, rfl, rfl⟩

theorem provision_descriptor_fields_witness :
    lookupAssoc
        (PersistentVolume.annotations
          { name := "pv-1",
            annotations := [("hostPathProvisionerIdentity", "hostpath-provisioner")],
            reclaimPolicy := "Delete", accessModes := ["ReadWriteOnce"],
            capacityStorage := "1Gi", hostPath := some "/data/ns1/pvc-a" })
        "hostPathProvisionerIdentity" = some "hostpath-provisioner" :=
  (provision_descriptor_fields ⟨"/data", "hostpath-provisioner"⟩
    ⟨fun _ => none, fun _ => none, fun _ => none⟩
    { storageClass := ⟨some "Delete"⟩, pvName := "pv-1",
      pvc := { namespace_ := "ns1", name := "pvc-a",
               spec := { accessModes := ["ReadWriteOnce"],
                         requests := [("storage", "1Gi")] } } }
    [] ["/data/ns1/pvc-a"] _ (by decide)).1

/-- C7: a directory-creation failure other than "already exists" makes
`Provision` fail with the OS error (an `os` PathError carrying path and
cause) with the filesystem state unchanged and no descriptor; a chmod
failure likewise fails with the propagated PathError and no descriptor.
Either failure is returned immediately (no internal retry). -/
theorem provision_fs_errors_propagate (p : hostPathProvisioner) (env : FsEnv)
    (o : ProvisionOptions) (fs : List String) (e : PathErr) :
    (env.mkdirErr (pvPath p.pvDir o.pvc.namespace_ o.pvc.name)
        = some (MkdirOutcome.fail e) →
      Provision p env o fs = (ProvisionResult.err e, fs)) ∧
    ((env.mkdirErr (pvPath p.pvDir o.pvc.namespace_ o.pvc.name) = none
        ∨ env.mkdirErr (pvPath p.pvDir o.pvc.namespace_ o.pvc.name)
          = some MkdirOutcome.exist) →
      env.chmodErr (pvPath p.pvDir o.pvc.namespace_ o.pvc.name) = some e →
      (Provision p env o fs).1 = ProvisionResult.err e) := by
  refine ⟨fun hmk => Provision_mkdir_fail p env o fs e hmk, fun hmk hch => ?_⟩
  cases hmk with
  | inl hnone =>
    rw [Provision_mkdir_none p env o fs hnone,
      provisionAfterMkdir_chmod_err p env o _ _ e hch]
  | inr hexist =>
    rw [Provision_mkdir_exist p env o fs hexist,
      provisionAfterMkdir_chmod_err p env o _ _ e hch]

theorem provision_fs_errors_propagate_witness :
    Provision ⟨"/data", "hostpath-provisioner"⟩
        ⟨fun _ => some (MkdirOutcome.fail
            ⟨"mkdir", "/data/ns1/pvc-a", "permission denied"⟩),
          fun _ => none, fun _ => none⟩
        { storageClass := ⟨some "Delete"⟩, pvName := "pv-1",
          pvc := { namespace_ := "ns1", name := "pvc-a",
                   spec := { accessModes := ["ReadWriteOnce"],
                             requests := [("storage", "1Gi")] } } }
        []
      = (ProvisionResult.err ⟨"mkdir", "/data/ns1/pvc-a", "permission denied"⟩, []) :=
  (provision_fs_errors_propagate _ _ _ _
    ⟨"mkdir", "/data/ns1/pvc-a", "permission denied"⟩).1 rfl

/-- C8: the three configuration values are read from environment variables
`PROVISIONER_NAME`, `PROVISIONER_DIR` and `PROVISIONER_ISSUER`; each is
optional, defaulting respectively to `"hostpath"`, `"/data"` and
`"hostpath-provisioner"` when not provided (Go's `os.Getenv` reports an
unset variable as the empty string), and otherwise yields the variable's
value.  In the embedding the values are pure functions of the startup
environment, matching "read once, immutable thereafter". -/
theorem config_env_defaults (osEnv : String → String) :
    (osEnv "PROVISIONER_NAME" = "" → provisionerName osEnv = "hostpath") ∧
    (osEnv "PROVISIONER_NAME" ≠ ""
      → provisionerName osEnv = osEnv "PROVISIONER_NAME") ∧
    (osEnv "PROVISIONER_DIR" = "" → pvDir osEnv = "/data") ∧
    (osEnv "PROVISIONER_DIR" ≠ "" → pvDir osEnv = osEnv "PROVISIONER_DIR") ∧
    (osEnv "PROVISIONER_ISSUER" = ""
      → identity osEnv = "hostpath-provisioner") ∧
    (osEnv "PROVISIONER_ISSUER" ≠ ""
      → identity osEnv = osEnv "PROVISIONER_ISSUER") := by
  refine ⟨fun h => ?_, fun h => ?_, fun h => ?_, fun h => ?_, fun h => ?_, fun h => ?_⟩
  all_goals
    simp [provisionerName, pvDir, identity, getEnv, defaultProvisionerName,
      defaultPVDir, defaultIdentity, h]

theorem config_env_defaults_witness :
    (provisionerName (fun _ => "") = "hostpath" ∧
      pvDir (fun _ => "") = "/data" ∧
      identity (fun _ => "") = "hostpath-provisioner") ∧
    pvDir (fun _ => "/mnt/disks") = "/mnt/disks" :=
  ⟨⟨(config_env_defaults (fun _ => "")).1 rfl,
    (config_env_defaults (fun _ => "")).2.2.1 rfl,
    (config_env_defaults (fun _ => "")).2.2.2.2.1 rfl⟩,
    (config_env_defaults (fun _ => "/mnt/disks")).2.2.2.1 (by decide)⟩

/-- C9: when the storage-class reclaim policy is set, `Provision` never hits
the nil-pointer panic; when it is absent, `Provision` reaches the
unconditional dereference `*options.StorageClass.ReclaimPolicy` (main.go:67)
once the filesystem steps succeed, and panics instead of returning an
error. -/
theorem provision_reclaim_policy_panic (p : hostPathProvisioner) (env : FsEnv)
    (o : ProvisionOptions) (fs : List String) :
    (∀ rp, o.storageClass.reclaimPolicy = some rp →
      (Provision p env o fs).1 ≠ ProvisionResult.panics) ∧
    (o.storageClass.reclaimPolicy = none →
      (∀ e, env.mkdirErr (pvPath p.pvDir o.pvc.namespace_ o.pvc.name)
        ≠ some (MkdirOutcome.fail e)) →
      env.chmodErr (pvPath p.pvDir o.pvc.namespace_ o.pvc.name) = none →
      (Provision p env o fs).1 = ProvisionResult.panics) := by
  constructor
  · intro rp hrp
    cases hmk : env.mkdirErr (pvPath p.pvDir o.pvc.namespace_ o.pvc.name) with
    | none =>
      rw [Provision_mkdir_none p env o fs hmk]
      cases hch : env.chmodErr (pvPath p.pvDir o.pvc.namespace_ o.pvc.name) with
      | none => rw [provisionAfterMkdir_ok p env o _ _ rp hch hrp]; simp
      | some e => rw [provisionAfterMkdir_chmod_err p env o _ _ e hch]; simp
    | some outcome =>
      cases outcome with
      | exist =>
        rw [Provision_mkdir_exist p env o fs hmk]
        cases hch : env.chmodErr (pvPath p.pvDir o.pvc.namespace_ o.pvc.name) with
        | none => rw [provisionAfterMkdir_ok p env o _ _ rp hch hrp]; simp
        | some e => rw [provisionAfterMkdir_chmod_err p env o _ _ e hch]; simp
      | fail e => rw [Provision_mkdir_fail p env o fs e hmk]; simp
  · intro hrp hmk hch
    cases hmk2 : env.mkdirErr (pvPath p.pvDir o.pvc.namespace_ o.pvc.name) with
    | none =>
      rw [Provision_mkdir_none p env o fs hmk2,
        provisionAfterMkdir_panics p env o _ _ hch hrp]
    | some outcome =>
      cases outcome with
      | exist =>
        rw [Provision_mkdir_exist p env o fs hmk2,
          provisionAfterMkdir_panics p env o _ _ hch hrp]
      | fail e => exact absurd hmk2 (hmk e)

theorem provision_reclaim_policy_panic_witness :
    (Provision ⟨"/data", "hostpath-provisioner"⟩
        ⟨fun _ => none, fun _ => none, fun _ => none⟩
        { storageClass := ⟨some "Delete"⟩, pvName := "pv-1",
          pvc := { namespace_ := "ns1", name := "pvc-a",
                   spec := { accessModes := ["ReadWriteOnce"],
                             requests := [("storage", "1Gi")] } } }
        []).1 ≠ ProvisionResult.panics ∧
    (Provision ⟨"/data", "hostpath-provisioner"⟩
        ⟨fun _ => none, fun _ => none, fun _ => none⟩
        { storageClass := ⟨none⟩, pvName := "pv-1",
          pvc := { namespace_ := "ns1", name := "pvc-a",
                   spec := { accessModes := ["ReadWriteOnce"],
                             requests := [("storage", "1Gi")] } } }
        []).1 = ProvisionResult.panics :=
  ⟨(provision_reclaim_policy_panic _ _ _ _).1 "Delete" rfl,
    (provision_reclaim_policy_panic _ _ _ _).2 rfl (fun _ h => by simp at h) rfl⟩

/-- C10: `Provision` validates nothing: `path.Join` drops empty components,
with both namespace and claim name empty the derived path is the configured
(cleaned) root itself, and `Provision` proceeds to create and return that
degenerate path rather than rejecting the request. -/
theorem provision_no_input_validation :
    (∀ root x, goJoin [root, "", x] = goJoin [root, x]) ∧
    (∀ root x, goJoin [root, x, ""] = goJoin [root, x]) ∧
    (∀ root, goClean root = root → pvPath root "" "" = root) ∧
    (∀ (p : hostPathProvisioner) (env : FsEnv) (o : ProvisionOptions)
        (fs : List String) (rp : String),
      o.pvc.namespace_ = "" → o.pvc.name = "" → goClean p.pvDir = p.pvDir →
      env.mkdirErr p.pvDir = none → env.chmodErr p.pvDir = none →
      o.storageClass.reclaimPolicy = some rp →
      Provision p env o fs
        = (ProvisionResult.ok (buildPV p o p.pvDir rp), mkdirAllState fs p.pvDir)) := by
  refine ⟨goJoin_mid_empty, goJoin_last_empty, pvPath_empty_empty, ?_⟩
  intro p env o fs rp hns hname hroot hmk hch hrp
  have hpath : pvPath p.pvDir o.pvc.namespace_ o.pvc.name = p.pvDir := by
    rw [hns, hname]
    exact pvPath_empty_empty _ hroot
  rw [Provision_mkdir_none p env o fs (by rw [hpath]; exact hmk), hpath,
    provisionAfterMkdir_ok p env o _ _ rp hch hrp]

theorem provision_no_input_validation_witness :
    pvPath "/data" "" "" = "/data" ∧
    Provision ⟨"/data", "hostpath-provisioner"⟩
        ⟨fun _ => none, fun _ => none, fun _ => none⟩
        { storageClass := ⟨some "Delete"⟩, pvName := "pv-1",
          pvc := { namespace_ := "", name := "",
                   spec := { accessModes := [], requests := [] } } }
        []
      = (ProvisionResult.ok
          (buildPV ⟨"/data", "hostpath-provisioner"⟩
            { storageClass := ⟨some "Delete"⟩, pvName := "pv-1",
              pvc := { namespace_ := "", name := "",
                       spec := { accessModes := [], requests := [] } } }
            "/data" "Delete"),
          mkdirAllState [] "/data") :=
  ⟨provision_no_input_validation.2.2.1 "/data" (by decide),
    provision_no_input_validation.2.2.2 ⟨"/data", "hostpath-provisioner"⟩
      ⟨fun _ => none, fun _ => none, fun _ => none⟩
      { storageClass := ⟨some "Delete"⟩, pvName := "pv-1",
        pvc := { namespace_ := "", name := "",
                 spec := { accessModes := [], requests := [] } } }
      [] "Delete" rfl rfl (by decide) rfl rfl rfl⟩
